import Mathlib

/-!
Verification of the reminder scheduling and delivery engine of the
Subscription-Saviour repository (`app/scheduler.py`), shallowly embedded in
Lean 4.

Instants are modelled as integers (seconds); `timedelta(days = n)` becomes
`n * secondsPerDay`.  The relational store is a list of subscription rows and
a list of user rows; the external Telegram channel is modelled by a write-only
log of the `send_message` calls made during a run, together with an oracle
`sendOk : SendEvent → Bool` deciding whether a given call succeeds (a failed
call raises in the source, which `send_reminder` turns into a `False` return).
The database itself is modelled as reliable: the at-least-once gap of a write
failure after a confirmed send is outside every claim.
-/

namespace SubscriptionSaviour

/-- `PlanType` from `app/database.py`. -/
inductive PlanType where
  | FREE
  | PRO
  deriving DecidableEq, Repr

/-- `ReminderType` from `app/database.py`. -/
inductive ReminderType where
  | SEVEN_DAYS
  | THREE_DAYS
  | ONE_DAY
  | TWO_DAYS
  deriving DecidableEq, Repr

/-- The `users` row fields the scheduler reads. -/
structure User where
  telegram_id : Int
  plan_type : PlanType
  is_active : Bool
  deriving DecidableEq, Repr

/-- The `subscriptions` row fields the scheduler reads or writes.
`reminder_type` is optional because the column is nullable; instants are
integer seconds. -/
structure Subscription where
  id : Nat
  user_id : Int
  service_name : String
  cost : Option String
  start_date : Int
  end_date : Int
  reminder_type : Option ReminderType
  notes : Option String
  is_active : Bool
  reminded_at : Option Int
  deriving DecidableEq, Repr

/-- One call to `bot.send_message`: chat id, text, and the arguments of the
inline keyboard `get_reminder_action_keyboard(subscription.id, user.plan_type)`
attached to the message. -/
structure SendEvent where
  chat_id : Int
  text : String
  kb_subscription : Nat
  kb_plan : PlanType
  deriving DecidableEq, Repr

/-- Store contents plus the log of message-channel calls made so far. -/
@[ext]
structure World where
  subscriptions : List Subscription
  users : List User
  log : List SendEvent
  deriving DecidableEq, Repr

def secondsPerDay : Int := 86400

/-- `ReminderScheduler.get_reminder_offset_days`: the fixed mapping table,
with `mapping.get(reminder_type, 2)` defaulting a missing category to 2. -/
def get_reminder_offset_days (reminder_type : Option ReminderType) : Int :=
  match reminder_type with
  | some ReminderType.ONE_DAY => 1
  | some ReminderType.TWO_DAYS => 2
  | some ReminderType.THREE_DAYS => 3
  | some ReminderType.SEVEN_DAYS => 7
  | none => 2

/-- `reminder_date = subscription.end_date - timedelta(days=reminder_offset)`
(lines 92-93 of `app/scheduler.py`). -/
def triggerInstant (subscription : Subscription) : Int :=
  subscription.end_date -
    get_reminder_offset_days subscription.reminder_type * secondsPerDay

/-- Python truthiness of an optional text column (`None` and `""` are falsy). -/
def truthyText : Option String → Bool
  | some t => t != ""
  | none => false

/-- Python `v or dflt` for an optional text column. -/
def optionalText (v : Option String) (dflt : String) : String :=
  match v with
  | some t => if t = "" then dflt else t
  | none => dflt

/-- `timedelta.days`: floor of the difference in days. -/
def daysBetween (end_date now : Int) : Int :=
  Int.fdiv (end_date - now) secondsPerDay

/-- `end_date.strftime(...)`: the calendar rendering of an instant, abstracted
as an injective rendering of the raw instant. -/
def formatDate (t : Int) : String :=
  toString t

/-- The `reminder_text` composed by `ReminderScheduler.send_reminder`
(lines 26-45): header with service name, floor day difference, expiry date and
cost, the notes line only for `PRO` users with truthy notes, then the fixed
call-to-action tail. -/
def reminderText (now : Int) (subscription : Subscription) (user : User) : String :=
  let days_left := daysBetween subscription.end_date now
  let header :=
    "\n🚨 **Subscription Reminder**\n\n⚠️ **" ++ subscription.service_name ++
      "** expires in " ++ toString days_left ++ " day" ++
      (if days_left != 1 then "s" else "") ++ "!\n\n📅 **Expiry Date**: " ++
      formatDate subscription.end_date ++ "\n💰 **Cost**: " ++
      optionalText subscription.cost "Not specified" ++ "\n"
  let withNotes :=
    if user.plan_type == PlanType.PRO && truthyText subscription.notes then
      header ++ "📝 **Your Notes**: " ++ optionalText subscription.notes "" ++ "\n"
    else header
  withNotes ++
    "\n**Don\x27t forget to cancel if you don\x27t want to continue!**\n\nTake action now:\n"

/-- The full `bot.send_message` call of `send_reminder` (lines 48-53). -/
def mkSendEvent (now : Int) (subscription : Subscription) (user : User) : SendEvent :=
  { chat_id := user.telegram_id
    text := reminderText now subscription user
    kb_subscription := subscription.id
    kb_plan := user.plan_type }

/-- `db.query(User).filter(User.telegram_id == uid).first()`. -/
def findUser (users : List User) (uid : Int) : Option User :=
  List.find? (fun u => u.telegram_id == uid) users

/-- The write of `send_reminder` lines 56-60: look up the first row with the
given id and, if present, set its `reminded_at` to now. -/
def markReminded (now : Int) (sid : Nat) : List Subscription → List Subscription
  | [] => []
  | s :: rest =>
      if s.id = sid then { s with reminded_at := some now } :: rest
      else s :: markReminded now sid rest

/-- `ReminderScheduler.send_reminder`: compose the message, call the channel
(logged), and on confirmed success persist `reminded_at = now` and return
`true`; on channel failure return `false` with the store untouched. -/
def send_reminder (sendOk : SendEvent → Bool) (now : Int) (w : World)
    (subscription : Subscription) (user : User) : Bool × World :=
  let e := mkSendEvent now subscription user
  if sendOk e then
    (true,
      { w with
          log := w.log ++ [e]
          subscriptions := markReminded now subscription.id w.subscriptions })
  else
    (false, { w with log := w.log ++ [e] })

/-- The query of `process_pending_reminders` lines 83-86. -/
def pendingFilter (s : Subscription) : Bool :=
  s.is_active && s.reminded_at.isNone

/-- The per-subscription loop of `process_pending_reminders` lines 90-106:
for each snapshot row, if the trigger instant has passed and the owner exists
and is active, send; successful sends are counted. -/
def processLoop (sendOk : SendEvent → Bool) (now : Int) :
    List Subscription → World → Nat → Nat × World
  | [], w, reminders_sent => (reminders_sent, w)
  | subscription :: rest, w, reminders_sent =>
      if triggerInstant subscription ≤ now then
        match findUser w.users subscription.user_id with
        | some user =>
            if user.is_active then
              let r := send_reminder sendOk now w subscription user
              processLoop sendOk now rest r.2
                (reminders_sent + if r.1 then 1 else 0)
            else processLoop sendOk now rest w reminders_sent
        | none => processLoop sendOk now rest w reminders_sent
      else processLoop sendOk now rest w reminders_sent

/-- `ReminderScheduler.process_pending_reminders`: query the active,
not-yet-reminded rows, then run the dispatch loop; returns the count of
successful sends and the final state. -/
def process_pending_reminders (sendOk : SendEvent → Bool) (now : Int)
    (w : World) : Nat × World :=
  processLoop sendOk now (w.subscriptions.filter pendingFilter) w 0

/-- The predicate of the bulk update in `cleanup_expired_subscriptions`
lines 114-117. -/
def expiredFilter (now : Int) (s : Subscription) : Bool :=
  s.is_active && s.end_date < now

/-- `ReminderScheduler.cleanup_expired_subscriptions`: bulk-update every
active subscription whose end instant has passed to inactive, returning the
number of rows matched. -/
def cleanup_expired_subscriptions (now : Int) (w : World) : Nat × World :=
  ((w.subscriptions.filter (expiredFilter now)).length,
    { w with
        subscriptions := w.subscriptions.map (fun s =>
          if expiredFilter now s then { s with is_active := false } else s) })

/-- The `send_individual_reminder` Celery task (lines 150-176): find the first
active row with the given id, find its owner, and send — with no check of
`reminded_at` and no check of the owner's `is_active` flag. -/
def send_individual_reminder (sendOk : SendEvent → Bool) (now : Int) (w : World)
    (subscription_id : Nat) : Bool × World :=
  match List.find? (fun s => s.id == subscription_id && s.is_active)
      w.subscriptions with
  | some subscription =>
      match findUser w.users subscription.user_id with
      | some user => send_reminder sendOk now w subscription user
      | none => (false, w)
  | none => (false, w)

/-! ### Characterization of one batch cycle -/

/-- The channel call that the dispatch loop makes for a snapshot row, if any:
an attempt happens exactly when the trigger instant has passed and the owner
exists and is active. -/
def attemptEvent (now : Int) (users : List User) (s : Subscription) :
    Option SendEvent :=
  if triggerInstant s ≤ now then
    match findUser users s.user_id with
    | some user => if user.is_active then some (mkSendEvent now s user) else none
    | none => none
  else none

/-- Whether the dispatch loop performs a successful send for a snapshot row. -/
def hitB (sendOk : SendEvent → Bool) (now : Int) (users : List User)
    (s : Subscription) : Bool :=
  match attemptEvent now users s with
  | some e => sendOk e
  | none => false

/-- Whether a cycle of `process_pending_reminders` performs a successful send
for a given store row: it is selected by the snapshot query and the loop send
succeeds. -/
def sentB (sendOk : SendEvent → Bool) (now : Int) (users : List User)
    (s : Subscription) : Bool :=
  pendingFilter s && hitB sendOk now users s

/-- The accumulated `reminded_at` writes of a run of the dispatch loop. -/
def applyMarks (now : Int) (sent : List Subscription)
    (l : List Subscription) : List Subscription :=
  sent.foldl (fun acc s => markReminded now s.id acc) l

/-- The due condition of the spec: active, not yet reminded, owner present and
active, and the trigger instant `end − policy(lead)` has passed. -/
def dueProp (now : Int) (w : World) (s : Subscription) : Prop :=
  s.is_active = true ∧ s.reminded_at = none ∧
    ∃ u, findUser w.users s.user_id = some u ∧ u.is_active = true ∧
      triggerInstant s ≤ now

theorem markReminded_eq_map (now : Int) (sid : Nat) :
    ∀ l : List Subscription, (l.map Subscription.id).Nodup →
    markReminded now sid l =
      l.map (fun x =>
        if x.id = sid then { x with reminded_at := some now } else x) := by
  intro l
  induction l with
  | nil => intro _; rfl
  | cons s rest ih =>
      intro hnd
      rw [List.map_cons, List.nodup_cons] at hnd
      by_cases hs : s.id = sid
      · rw [markReminded, if_pos hs, List.map_cons, if_pos hs]
        have hrest : ∀ x ∈ rest,
            (if x.id = sid then { x with reminded_at := some now } else x) = id x := by
          intro x hx
          rw [if_neg, id]
          intro hxid
          exact hnd.1 (hs ▸ hxid ▸ List.mem_map_of_mem Subscription.id hx)
        rw [List.map_congr_left hrest, List.map_id]
      · rw [markReminded, if_neg hs, List.map_cons, if_neg hs, ih hnd.2]

theorem markReminded_id_map (now : Int) (sid : Nat) :
    ∀ l : List Subscription,
    (markReminded now sid l).map Subscription.id = l.map Subscription.id := by
  intro l
  induction l with
  | nil => rfl
  | cons s rest ih =>
      by_cases hs : s.id = sid
      · rw [markReminded, if_pos hs, List.map_cons, List.map_cons]
      · rw [markReminded, if_neg hs, List.map_cons, List.map_cons, ih]

theorem applyMarks_spec (now : Int) :
    ∀ sent l : List Subscription,
    (l.map Subscription.id).Nodup →
    (∀ x ∈ sent, x ∈ l) →
    (sent.map Subscription.id).Nodup →
    applyMarks now sent l =
      l.map (fun x =>
        if sent.any (fun y => y.id == x.id) then { x with reminded_at := some now }
        else x) := by
  intro sent
  induction sent with
  | nil =>
      intro l _ _ _
      simp [applyMarks]
  | cons y rest ih =>
      intro l hnd hmem hsnd
      rw [List.map_cons, List.nodup_cons] at hsnd
      have hstep : applyMarks now (y :: rest) l =
          applyMarks now rest (markReminded now y.id l) := rfl
      rw [hstep, markReminded_eq_map now y.id l hnd]
      have hid : ∀ x : Subscription,
          ((if x.id = y.id then { x with reminded_at := some now } else x)).id = x.id := by
        intro x
        by_cases h : x.id = y.id <;> simp [h]
      have hnd2 : ((l.map (fun x =>
          if x.id = y.id then { x with reminded_at := some now } else x)).map
            Subscription.id).Nodup := by
        rw [List.map_map]
        have hcomp : (Subscription.id ∘ fun x =>
            if x.id = y.id then { x with reminded_at := some now } else x) =
              Subscription.id := funext hid
        rw [hcomp]
        exact hnd
      have hmem2 : ∀ x ∈ rest,
          x ∈ l.map (fun x =>
            if x.id = y.id then { x with reminded_at := some now } else x) := by
        intro x hx
        have hxl : x ∈ l := hmem x (List.mem_cons_of_mem y hx)
        have hxid : x.id ≠ y.id := by
          intro h
          exact hsnd.1 (h ▸ List.mem_map_of_mem Subscription.id hx)
        have : (if x.id = y.id then { x with reminded_at := some now } else x) = x :=
          if_neg hxid
        exact this ▸ List.mem_map_of_mem _ hxl
      rw [ih _ hnd2 hmem2 hsnd.2, List.map_map]
      apply List.map_congr_left
      intro x hx
      by_cases hxy : x.id = y.id
      · have hany : rest.any (fun z =>
            z.id == ((if x.id = y.id then { x with reminded_at := some now }
              else x) : Subscription).id) = false := by
          rw [if_pos hxy]
          apply List.any_eq_false.mpr
          intro z hz
          have hz2 : z.id ≠ y.id := by
            intro h
            exact hsnd.1 (h ▸ List.mem_map_of_mem Subscription.id hz)
          simpa [hxy] using hz2
        simp only [Function.comp]
        rw [if_pos hxy]
        have hany' : rest.any (fun z =>
            z.id == ({ x with reminded_at := some now } : Subscription).id) = false := by
          simpa [hxy] using hany
        rw [hany']
        have : (y.id == x.id) = true := by simp [hxy]
        simp [this]
      · simp only [Function.comp]
        rw [if_neg hxy]
        have : (y.id == x.id) = false := by
          simp
          intro h
          exact hxy h.symm
        simp [List.any_cons, this]

theorem processLoop_spec (sendOk : SendEvent → Bool) (now : Int) :
    ∀ (ps : List Subscription) (w : World) (acc : Nat),
    processLoop sendOk now ps w acc =
      (acc + ps.countP (hitB sendOk now w.users),
        { subscriptions :=
            applyMarks now (ps.filter (hitB sendOk now w.users)) w.subscriptions
          users := w.users
          log := w.log ++ ps.filterMap (attemptEvent now w.users) }) := by
  intro ps
  induction ps with
  | nil =>
      intro w acc
      simp [processLoop, applyMarks]
  | cons s rest ih =>
      intro w acc
      by_cases ht : triggerInstant s ≤ now
      · cases hu : findUser w.users s.user_id with
        | none =>
            have hae : attemptEvent now w.users s = none := by
              simp [attemptEvent, ht, hu]
            have hhit : hitB sendOk now w.users s = false := by
              simp [hitB, hae]
            simp only [processLoop, if_pos ht, hu]
            rw [ih w acc]
            simp [List.countP_cons, List.filter_cons, List.filterMap_cons, hae, hhit]
        | some user =>
            by_cases hua : user.is_active
            · have hae : attemptEvent now w.users s =
                  some (mkSendEvent now s user) := by
                simp [attemptEvent, ht, hu, hua]
              have hhit : hitB sendOk now w.users s =
                  sendOk (mkSendEvent now s user) := by
                simp [hitB, hae]
              by_cases hse : sendOk (mkSendEvent now s user) = true
              · simp only [processLoop, if_pos ht, hu, hua, if_pos, send_reminder,
                  hse, if_true]
                rw [ih _ (acc + 1)]
                simp only [List.countP_cons, List.filter_cons, List.filterMap_cons,
                  hae, hhit, hse, if_true, Option.toList]
                refine Prod.ext ?_ ?_
                · simp
                  omega
                · simp [applyMarks, List.append_assoc]
              · have hse' : sendOk (mkSendEvent now s user) = false := by
                  simpa using hse
                simp only [processLoop, if_pos ht, hu, hua, if_true, send_reminder,
                  hse', Bool.false_eq_true, if_false]
                rw [ih _ (acc + 0)]
                simp only [List.countP_cons, List.filter_cons, List.filterMap_cons,
                  hae, hhit, hse', Bool.false_eq_true, if_false]
                refine Prod.ext ?_ ?_
                · simp
                · simp [List.append_assoc]
            · have hua' : user.is_active = false := by simpa using hua
              have hae : attemptEvent now w.users s = none := by
                simp [attemptEvent, ht, hu, hua']
              have hhit : hitB sendOk now w.users s = false := by
                simp [hitB, hae]
              simp only [processLoop, if_pos ht, hu, hua', Bool.false_eq_true,
                if_false]
              rw [ih w acc]
              simp [List.countP_cons, List.filter_cons, List.filterMap_cons, hae, hhit]
      · have hae : attemptEvent now w.users s = none := by
          simp [attemptEvent, ht]
        have hhit : hitB sendOk now w.users s = false := by
          simp [hitB, hae]
        simp only [processLoop, if_neg ht]
        rw [ih w acc]
        simp [List.countP_cons, List.filter_cons, List.filterMap_cons, hae, hhit]

theorem filter_any_id (p : Subscription → Bool) :
    ∀ (l : List Subscription), (l.map Subscription.id).Nodup →
    ∀ x ∈ l, (l.filter p).any (fun y => y.id == x.id) = p x := by
  intro l hnd x hx
  cases hp : p x with
  | true =>
      apply List.any_eq_true.mpr
      exact ⟨x, List.mem_filter.mpr ⟨hx, hp⟩, by simp⟩
  | false =>
      apply List.any_eq_false.mpr
      intro y hy
      have hyl : y ∈ l := List.mem_of_mem_filter hy
      have hpy : p y = true := (List.mem_filter.mp hy).2
      simp only [beq_iff_eq]
      intro hxy
      have : y = x := List.inj_on_of_nodup_map hnd hyl hx hxy
      rw [this] at hpy
      rw [hpy] at hp
      exact Bool.true_eq_false.mp hp

/-- One batch cycle, characterized: the returned count is the number of rows
for which a successful send happened, each such row gets `reminded_at := now`
and every other row is untouched, the user table is untouched, and the channel
log is extended by exactly the attempts of this cycle in order. -/
theorem process_pending_spec (sendOk : SendEvent → Bool) (now : Int) (w : World)
    (hnd : (w.subscriptions.map Subscription.id).Nodup) :
    process_pending_reminders sendOk now w =
      (w.subscriptions.countP (sentB sendOk now w.users),
        { subscriptions := w.subscriptions.map (fun s =>
            if sentB sendOk now w.users s then { s with reminded_at := some now }
            else s)
          users := w.users
          log := w.log ++
            (w.subscriptions.filter pendingFilter).filterMap
              (attemptEvent now w.users) }) := by
  rw [process_pending_reminders, processLoop_spec]
  refine Prod.ext ?_ ?_
  · simp only [List.countP_filter, Nat.zero_add]
    apply List.countP_congr
    intro x _
    simp [sentB, Bool.and_comm]
  · simp only
    refine World.ext ?_ rfl rfl
    simp only
    rw [List.filter_filter]
    have hsent : w.subscriptions.filter
        (fun a => hitB sendOk now w.users a && pendingFilter a) =
          w.subscriptions.filter (sentB sendOk now w.users) := by
      apply List.filter_congr
      intro x _
      simp [sentB, Bool.and_comm]
    rw [hsent]
    have hsub : List.Sublist (w.subscriptions.filter (sentB sendOk now w.users))
        w.subscriptions := List.filter_sublist w.subscriptions
    rw [applyMarks_spec now _ _ hnd
      (fun x hx => List.mem_of_mem_filter hx)
      (hnd.sublist (hsub.map Subscription.id))]
    apply List.map_congr_left
    intro x hx
    rw [filter_any_id (sentB sendOk now w.users) w.subscriptions hnd x hx]

theorem attemptEvent_eq_some (now : Int) (users : List User) (x : Subscription)
    (e : SendEvent) :
    attemptEvent now users x = some e ↔
      (triggerInstant x ≤ now ∧ ∃ u, findUser users x.user_id = some u ∧
        u.is_active = true ∧ e = mkSendEvent now x u) := by
  rw [attemptEvent]
  by_cases ht : triggerInstant x ≤ now
  · rw [if_pos ht]
    cases hu : findUser users x.user_id with
    | none => simp [ht, hu]
    | some u =>
        by_cases hua : u.is_active = true
        · simp only [hua, if_true]
          constructor
          · intro h
            exact ⟨ht, u, rfl, hua, (Option.some.inj h).symm⟩
          · rintro ⟨-, u2, hu2, hua2, he⟩
            have huu : u = u2 := Option.some.inj hu2
            subst huu
            rw [he]
        · simp [ht, hu, hua]
  · simp [ht]

theorem attemptEvent_kb (now : Int) (users : List User) (x : Subscription)
    (e : SendEvent) (h : attemptEvent now users x = some e) :
    e.kb_subscription = x.id := by
  rcases (attemptEvent_eq_some now users x e).mp h with ⟨_, u, _, _, he⟩
  rw [he]
  rfl

/-- A cycle makes a channel call carrying a given subscription id exactly when
that row satisfies the due condition of the spec. -/
theorem attempted_iff_due (sendOk : SendEvent → Bool) (now : Int) (w : World)
    (s : Subscription)
    (hnd : (w.subscriptions.map Subscription.id).Nodup)
    (hlog : w.log = [])
    (hs : s ∈ w.subscriptions) :
    (∃ e ∈ (process_pending_reminders sendOk now w).2.log,
        e.kb_subscription = s.id) ↔ dueProp now w s := by
  rw [process_pending_spec sendOk now w hnd]
  simp only [hlog, List.nil_append]
  constructor
  · rintro ⟨e, he, hekb⟩
    rcases List.mem_filterMap.mp he with ⟨x, hxf, hxe⟩
    have hxkb := attemptEvent_kb now w.users x e hxe
    have hxid : x.id = s.id := by rw [← hxkb, hekb]
    have hxs : x = s :=
      List.inj_on_of_nodup_map hnd (List.mem_of_mem_filter hxf) hs hxid
    subst hxs
    have hpend : pendingFilter x = true := (List.mem_filter.mp hxf).2
    rw [pendingFilter, Bool.and_eq_true, Option.isNone_iff_eq_none] at hpend
    rcases (attemptEvent_eq_some now w.users x e).mp hxe with ⟨ht, u, hu, hua, _⟩
    exact ⟨hpend.1, hpend.2, u, hu, hua, ht⟩
  · rintro ⟨hact, hrem, u, hu, hua, ht⟩
    refine ⟨mkSendEvent now s u, ?_, rfl⟩
    apply List.mem_filterMap.mpr
    refine ⟨s, List.mem_filter.mpr ⟨hs, ?_⟩, ?_⟩
    · rw [pendingFilter, hact, hrem]
      rfl
    · exact (attemptEvent_eq_some now w.users s (mkSendEvent now s u)).mpr
        ⟨ht, u, hu, hua, rfl⟩

/-! ### Claim theorems -/

/-- C3: a cycle at time `now` attempts a reminder for a subscription exactly
when it is active, not yet reminded, its owner exists and is active, and
`now ≥ end − policy(lead)`; the policy maps the four categories to 1/2/3/7
days and a missing category to 2 days, so the subscription becomes selectable
at exactly `end − lead` and not before. -/
theorem claim_C3_selection (sendOk : SendEvent → Bool) (now : Int) (w : World)
    (s : Subscription)
    (hnd : (w.subscriptions.map Subscription.id).Nodup)
    (hlog : w.log = [])
    (hs : s ∈ w.subscriptions) :
    ((∃ e ∈ (process_pending_reminders sendOk now w).2.log,
        e.kb_subscription = s.id) ↔
      (s.is_active = true ∧ s.reminded_at = none ∧
        ∃ u, findUser w.users s.user_id = some u ∧ u.is_active = true ∧
          s.end_date - get_reminder_offset_days s.reminder_type * secondsPerDay
            ≤ now)) ∧
    get_reminder_offset_days (some ReminderType.ONE_DAY) = 1 ∧
    get_reminder_offset_days (some ReminderType.TWO_DAYS) = 2 ∧
    get_reminder_offset_days (some ReminderType.THREE_DAYS) = 3 ∧
    get_reminder_offset_days (some ReminderType.SEVEN_DAYS) = 7 ∧
    get_reminder_offset_days none = 2 :=
  ⟨attempted_iff_due sendOk now w s hnd hlog hs, rfl, rfl, rfl, rfl, rfl⟩

/-- C4: on a confirmed successful send the dispatch returns success and
persists `reminded_at = now` for exactly that subscription, leaving every
other row unchanged; on a send failure it returns failure and leaves the
store untouched, so the subscription stays eligible for retry. -/
theorem claim_C4_dispatch (sendOk : SendEvent → Bool) (now : Int) (w : World)
    (s : Subscription) (u : User)
    (hnd : (w.subscriptions.map Subscription.id).Nodup) :
    (sendOk (mkSendEvent now s u) = true →
      (send_reminder sendOk now w s u).1 = true ∧
      (send_reminder sendOk now w s u).2.subscriptions =
        w.subscriptions.map (fun x =>
          if x.id = s.id then { x with reminded_at := some now } else x)) ∧
    (sendOk (mkSendEvent now s u) = false →
      (send_reminder sendOk now w s u).1 = false ∧
      (send_reminder sendOk now w s u).2.subscriptions = w.subscriptions) := by
  constructor
  · intro hok
    rw [send_reminder]
    simp only [hok, if_true]
    exact ⟨trivial, markReminded_eq_map now s.id w.subscriptions hnd⟩
  · intro hfail
    simp [send_reminder, hfail]

/-- C7: `cleanup_expired_subscriptions now` flips `is_active` to false on
exactly the rows that are active with end instant `< now`, returns the number
of such rows, and changes nothing else — in particular every row's
`reminded_at` is untouched, as are the user table and the channel log. -/
theorem claim_C7_reconcile (now : Int) (w : World) :
    (cleanup_expired_subscriptions now w).1 =
      (w.subscriptions.filter (fun s => s.is_active && s.end_date < now)).length ∧
    (∀ (i : Nat) (s : Subscription), w.subscriptions[i]? = some s →
      (cleanup_expired_subscriptions now w).2.subscriptions[i]? =
        some (if s.is_active = true ∧ s.end_date < now
          then { s with is_active := false } else s)) ∧
    (cleanup_expired_subscriptions now w).2.subscriptions.map
        Subscription.reminded_at =
      w.subscriptions.map Subscription.reminded_at ∧
    (cleanup_expired_subscriptions now w).2.users = w.users ∧
    (cleanup_expired_subscriptions now w).2.log = w.log := by
  refine ⟨rfl, ?_, ?_, rfl, rfl⟩
  · intro i s hi
    rw [cleanup_expired_subscriptions]
    simp only [List.getElem?_map, hi, Option.map_some]
    by_cases h : s.is_active = true ∧ s.end_date < now
    · have hb : expiredFilter now s = true := by
        rw [expiredFilter, h.1, Bool.true_and]
        exact decide_eq_true h.2
      simp [hb, h]
    · have hb : expiredFilter now s = false := by
        cases hact : s.is_active with
        | false => simp [expiredFilter, hact]
        | true =>
            simp only [expiredFilter, hact, Bool.true_and,
              decide_eq_false_iff_not]
            exact fun hlt => h ⟨hact, hlt⟩
      simp [hb, h]
  · rw [cleanup_expired_subscriptions]
    simp only [List.map_map]
    apply List.map_congr_left
    intro x _
    by_cases h : expiredFilter now x
    · simp [Function.comp, h]
    · simp [Function.comp, h]

/-- C8: the reconciler is idempotent — for every state and every `now`, a
second `cleanup_expired_subscriptions now` after a first one deactivates no
further row and returns 0, leaving the state of the first call intact. -/
theorem claim_C8_reconcile_idem (now : Int) (w : World) :
    cleanup_expired_subscriptions now
        (cleanup_expired_subscriptions now w).2 =
      (0, (cleanup_expired_subscriptions now w).2) := by
  have hall : ∀ x ∈ (cleanup_expired_subscriptions now w).2.subscriptions,
      expiredFilter now x = false := by
    intro x hx
    rw [cleanup_expired_subscriptions] at hx
    rcases List.mem_map.mp hx with ⟨y, _, rfl⟩
    by_cases h : expiredFilter now y = true
    · rw [if_pos h, expiredFilter]
      simp
    · have h' : expiredFilter now y = false := by simpa using h
      rw [h']
      simp only [Bool.false_eq_true, if_false]
      exact h'
  rw [cleanup_expired_subscriptions]
  refine Prod.ext ?_ ?_
  · simp only
    rw [List.filter_eq_nil_iff.mpr (by intro a ha; simp [hall a ha])]
    rfl
  · simp only
    refine World.ext ?_ rfl rfl
    simp only
    have : ∀ x ∈ (cleanup_expired_subscriptions now w).2.subscriptions,
        (if expiredFilter now x then { x with is_active := false } else x) =
          id x := by
      intro x hx
      rw [hall x hx]
      simp
    rw [List.map_congr_left this, List.map_id]

/-- C9: the composed reminder message shows the note only to `PRO` users —
for a `FREE`-tier user the text is identical for any two subscriptions that
differ only in their `notes` field. -/
theorem claim_C9_notes (now : Int) (s : Subscription) (n : Option String)
    (u : User) (hfree : u.plan_type = PlanType.FREE) :
    reminderText now { s with notes := n } u = reminderText now s u := by
  simp [reminderText, hfree]

/-- C5: in a batch cycle, failures are isolated per item — every due
subscription whose own send succeeds is dispatched and marked reminded,
no matter which other items of the batch fail. -/
theorem claim_C5_failure_isolation (sendOk : SendEvent → Bool) (now : Int)
    (w : World) (s : Subscription) (u : User)
    (hnd : (w.subscriptions.map Subscription.id).Nodup)
    (hlog : w.log = [])
    (hs : s ∈ w.subscriptions)
    (hact : s.is_active = true) (hrem : s.reminded_at = none)
    (hu : findUser w.users s.user_id = some u) (hua : u.is_active = true)
    (ht : triggerInstant s ≤ now)
    (hok : sendOk (mkSendEvent now s u) = true) :
    (∃ e ∈ (process_pending_reminders sendOk now w).2.log,
        e.kb_subscription = s.id) ∧
    { s with reminded_at := some now } ∈
      (process_pending_reminders sendOk now w).2.subscriptions := by
  constructor
  · exact (attempted_iff_due sendOk now w s hnd hlog hs).mpr
      ⟨hact, hrem, u, hu, hua, ht⟩
  · have hae : attemptEvent now w.users s = some (mkSendEvent now s u) :=
      (attemptEvent_eq_some now w.users s (mkSendEvent now s u)).mpr
        ⟨ht, u, hu, hua, rfl⟩
    have hhit : hitB sendOk now w.users s = true := by
      rw [hitB, hae]
      exact hok
    have hsent : sentB sendOk now w.users s = true := by
      rw [sentB, pendingFilter, hact, hrem]
      simpa using hhit
    rw [process_pending_spec sendOk now w hnd]
    simp only
    have hmem := List.mem_map_of_mem (fun x =>
      if sentB sendOk now w.users x then { x with reminded_at := some now }
      else x) hs
    simpa [hsent] using hmem

/-- C6: running the batch cycle twice with no time change between runs sends
zero reminders on the second run and leaves the store as the first run left
it — every row the first run reminded now has non-null `reminded_at` and is
excluded from the second selection, and every row whose send failed fails
identically again. -/
theorem claim_C6_cycle_idempotent (sendOk : SendEvent → Bool) (now : Int)
    (w : World)
    (hnd : (w.subscriptions.map Subscription.id).Nodup) :
    (process_pending_reminders sendOk now
        (process_pending_reminders sendOk now w).2).1 = 0 ∧
    (process_pending_reminders sendOk now
        (process_pending_reminders sendOk now w).2).2.subscriptions =
      (process_pending_reminders sendOk now w).2.subscriptions := by
  rw [process_pending_spec sendOk now w hnd]
  simp only
  set f := fun s =>
    if sentB sendOk now w.users s then { s with reminded_at := some now }
    else s with hf
  have hfid : ∀ x : Subscription, (f x).id = x.id := by
    intro x
    rw [hf]
    by_cases h : sentB sendOk now w.users x = true <;> simp [h]
  have hnd1 : (((w.subscriptions.map f).map Subscription.id)).Nodup := by
    rw [List.map_map]
    have : (Subscription.id ∘ f) = Subscription.id := funext hfid
    rw [this]
    exact hnd
  set w1 : World :=
    { subscriptions := w.subscriptions.map f
      users := w.users
      log := w.log ++ (w.subscriptions.filter pendingFilter).filterMap
        (attemptEvent now w.users) } with hw1
  have hsent1 : ∀ x ∈ w1.subscriptions, sentB sendOk now w1.users x = false := by
    intro x hx
    rcases List.mem_map.mp hx with ⟨y, _, rfl⟩
    by_cases h : sentB sendOk now w.users y = true
    · rw [hf]
      simp only [h, if_true]
      rw [sentB, pendingFilter]
      simp
    · have h' : sentB sendOk now w.users y = false := by simpa using h
      rw [hf]
      simp only [h', Bool.false_eq_true, if_false]
  rw [process_pending_spec sendOk now w1 hnd1]
  constructor
  · simp only
    rw [List.countP_eq_zero.mpr]
    intro a ha
    simp [hsent1 a ha]
  · simp only
    have : ∀ x ∈ w1.subscriptions,
        (if sentB sendOk now w1.users x then { x with reminded_at := some now }
          else x) = id x := by
      intro x hx
      rw [hsent1 x hx]
      simp
    rw [List.map_congr_left this, List.map_id]

/-- C10: a due subscription whose owner is missing or inactive is left
completely unchanged by a batch cycle — no channel call carries its id, its
row (with `reminded_at` still null) survives verbatim, and the user table and
the id column are unchanged, so the same situation recurs on every later
cycle while the owner stays missing or inactive. -/
theorem claim_C10_orphan_skipped (sendOk : SendEvent → Bool) (now : Int)
    (w : World) (s : Subscription)
    (hnd : (w.subscriptions.map Subscription.id).Nodup)
    (hlog : w.log = [])
    (hs : s ∈ w.subscriptions)
    (hact : s.is_active = true) (hrem : s.reminded_at = none)
    (ht : triggerInstant s ≤ now)
    (howner : ∀ u, findUser w.users s.user_id = some u → u.is_active = false) :
    (∀ e ∈ (process_pending_reminders sendOk now w).2.log,
      e.kb_subscription ≠ s.id) ∧
    s ∈ (process_pending_reminders sendOk now w).2.subscriptions ∧
    (process_pending_reminders sendOk now w).2.users = w.users ∧
    (process_pending_reminders sendOk now w).2.subscriptions.map
        Subscription.id =
      w.subscriptions.map Subscription.id := by
  have hnotdue : ¬ dueProp now w s := by
    rintro ⟨-, -, u, hu, hua, -⟩
    rw [howner u hu] at hua
    exact Bool.false_ne_true hua
  have hnoatt := (attempted_iff_due sendOk now w s hnd hlog hs).not.mpr hnotdue
  have hae : attemptEvent now w.users s = none := by
    cases hfu : attemptEvent now w.users s with
    | none => rfl
    | some e =>
        rcases (attemptEvent_eq_some now w.users s e).mp hfu with
          ⟨-, u, hu, hua, -⟩
        rw [howner u hu] at hua
        exact absurd hua Bool.false_ne_true
  have hsent : sentB sendOk now w.users s = false := by
    rw [sentB, hitB, hae]
    simp
  refine ⟨?_, ?_, ?_, ?_⟩
  · intro e he
    intro hkb
    exact hnoatt ⟨e, he, hkb⟩
  · rw [process_pending_spec sendOk now w hnd]
    simp only
    have hmem := List.mem_map_of_mem (fun x =>
      if sentB sendOk now w.users x then { x with reminded_at := some now }
      else x) hs
    simpa [hsent] using hmem
  · rw [process_pending_spec sendOk now w hnd]
  · rw [process_pending_spec sendOk now w hnd]
    simp only
    rw [List.map_map]
    apply List.map_congr_left
    intro x _
    simp only [Function.comp]
    by_cases h : sentB sendOk now w.users x = true <;> simp [h]

theorem cleanup_preserves_reminded (now : Int) (w : World) :
    (cleanup_expired_subscriptions now w).2.subscriptions.map
        Subscription.reminded_at =
      w.subscriptions.map Subscription.reminded_at := by
  rw [cleanup_expired_subscriptions]
  simp only [List.map_map]
  apply List.map_congr_left
  intro x _
  by_cases h : expiredFilter now x
  · simp [Function.comp, h]
  · simp [Function.comp, h]

/-! ### Concrete data for counterexamples and witnesses -/

def u42 : User :=
  { telegram_id := 42, plan_type := PlanType.FREE, is_active := true }

def u43 : User :=
  { telegram_id := 43, plan_type := PlanType.PRO, is_active := true }

def u42inactive : User :=
  { telegram_id := 42, plan_type := PlanType.FREE, is_active := false }

/-- A well-formed subscription: ends at 200000, two-day lead, so its trigger
instant is 200000 − 172800 = 27200. -/
def subDue : Subscription :=
  { id := 1, user_id := 42, service_name := "", cost := none,
    start_date := 0, end_date := 200000,
    reminder_type := some ReminderType.TWO_DAYS, notes := none,
    is_active := true, reminded_at := none }

/-- A malformed subscription: end instant equal to its start instant. -/
def subMal : Subscription :=
  { id := 1, user_id := 42, service_name := "", cost := none,
    start_date := 500, end_date := 500,
    reminder_type := some ReminderType.TWO_DAYS, notes := none,
    is_active := true, reminded_at := none }

/-- An already-reminded subscription (`reminded_at = 100`). -/
def subRem : Subscription :=
  { id := 1, user_id := 42, service_name := "", cost := none,
    start_date := 0, end_date := 200000,
    reminder_type := some ReminderType.TWO_DAYS, notes := none,
    is_active := true, reminded_at := some 100 }

def wMal : World := { subscriptions := [subMal], users := [u42], log := [] }

def wRem : World := { subscriptions := [subRem], users := [u42], log := [] }

/-- C2 (counterexample): at `now = 1000`, the batch cycle does **not** skip
the malformed subscription (end ≤ start): it sends a reminder for it (count 1,
a channel call carrying its id) and changes its state by setting
`reminded_at`. -/
theorem claim_C2_counterexample :
    subMal.end_date ≤ subMal.start_date ∧
    (process_pending_reminders (fun _ => true) 1000 wMal).1 = 1 ∧
    (∃ e ∈ (process_pending_reminders (fun _ => true) 1000 wMal).2.log,
      e.kb_subscription = subMal.id) ∧
    (process_pending_reminders (fun _ => true) 1000 wMal).2.subscriptions.map
        Subscription.reminded_at = [some 1000] := by
  decide

/-- C2 (amended): a subscription with end instant ≤ start instant receives no
special handling from the batch dispatcher: it is attempted under exactly the
same due condition as any record (so a reminder may be sent for it and its
state changed), and its presence never aborts the cycle — every subscription
of the store is still processed under the standard due condition. -/
theorem claim_C2_amended_no_skip (sendOk : SendEvent → Bool) (now : Int)
    (w : World) (s : Subscription)
    (hnd : (w.subscriptions.map Subscription.id).Nodup)
    (hlog : w.log = [])
    (hs : s ∈ w.subscriptions)
    (hmal : s.end_date ≤ s.start_date) :
    ((∃ e ∈ (process_pending_reminders sendOk now w).2.log,
        e.kb_subscription = s.id) ↔ dueProp now w s) ∧
    (∀ s2 ∈ w.subscriptions,
      ((∃ e ∈ (process_pending_reminders sendOk now w).2.log,
          e.kb_subscription = s2.id) ↔ dueProp now w s2)) :=
  ⟨attempted_iff_due sendOk now w s hnd hlog hs,
    fun s2 hs2 => attempted_iff_due sendOk now w s2 hnd hlog hs2⟩

/-- C1 (counterexample): `send_individual_reminder` does not follow the batch
idempotency rule — for a subscription whose `reminded_at` is already non-null
(100) it still sends (returns success and makes one channel call) and
rewrites `reminded_at` to the current time 200. -/
theorem claim_C1_counterexample :
    subRem.reminded_at = some 100 ∧
    (send_individual_reminder (fun _ => true) 200 wRem 1).1 = true ∧
    (send_individual_reminder (fun _ => true) 200 wRem 1).2.log.length = 1 ∧
    (send_individual_reminder (fun _ => true) 200 wRem 1).2.subscriptions.map
        Subscription.reminded_at = [some 200] := by
  decide

/-- C1 (amended): once `reminded_at` is non-null it is never cleared, and no
operation rewrites it to an earlier value under monotone time: the batch
dispatcher leaves the row verbatim and never re-sends for it, the reconciler
never touches any `reminded_at`, and `send_individual_reminder` — which does
**not** follow the batch idempotency rule and may re-send for an active
subscription regardless of `reminded_at` — only ever overwrites it with the
current time, never clearing it and never (for `now ≥` the stored value)
moving it backwards. -/
theorem claim_C1_amended_monotone (sendOk : SendEvent → Bool) (now : Int)
    (w : World) (s : Subscription) (t : Int)
    (hnd : (w.subscriptions.map Subscription.id).Nodup)
    (hlog : w.log = [])
    (hs : s ∈ w.subscriptions)
    (hrem : s.reminded_at = some t) :
    (s ∈ (process_pending_reminders sendOk now w).2.subscriptions ∧
      ∀ e ∈ (process_pending_reminders sendOk now w).2.log,
        e.kb_subscription ≠ s.id) ∧
    ((cleanup_expired_subscriptions now w).2.subscriptions.map
        Subscription.reminded_at =
      w.subscriptions.map Subscription.reminded_at) ∧
    (∀ sid : Nat, t ≤ now →
      ∀ z ∈ (send_individual_reminder sendOk now w sid).2.subscriptions,
        z.id = s.id → ∃ t2, z.reminded_at = some t2 ∧ t ≤ t2) := by
  have hbase : ∀ z ∈ w.subscriptions, z.id = s.id →
      ∃ t2, z.reminded_at = some t2 ∧ t ≤ t2 := by
    intro z hzw hzid
    have hzs : z = s := List.inj_on_of_nodup_map hnd hzw hs hzid
    exact ⟨t, hzs ▸ hrem, le_refl t⟩
  refine ⟨⟨?_, ?_⟩, cleanup_preserves_reminded now w, ?_⟩
  · have hsent : sentB sendOk now w.users s = false := by
      rw [sentB, pendingFilter, hrem]
      simp
    rw [process_pending_spec sendOk now w hnd]
    simp only
    have hmem := List.mem_map_of_mem (fun x =>
      if sentB sendOk now w.users x then { x with reminded_at := some now }
      else x) hs
    simpa [hsent] using hmem
  · have hnotdue : ¬ dueProp now w s := by
      rintro ⟨-, hnone, -⟩
      rw [hrem] at hnone
      exact Option.noConfusion hnone
    have hnoatt := (attempted_iff_due sendOk now w s hnd hlog hs).not.mpr hnotdue
    intro e he hkb
    exact hnoatt ⟨e, he, hkb⟩
  · intro sid htn z hz hzid
    rw [send_individual_reminder] at hz
    cases hfs : List.find? (fun x => x.id == sid && x.is_active)
        w.subscriptions with
    | none =>
        simp only [hfs] at hz
        exact hbase z hz hzid
    | some subscription =>
        simp only [hfs] at hz
        cases hfu : findUser w.users subscription.user_id with
        | none =>
            simp only [hfu] at hz
            exact hbase z hz hzid
        | some user =>
            simp only [hfu] at hz
            by_cases hok : sendOk (mkSendEvent now subscription user) = true
            · rw [send_reminder] at hz
              simp only [hok, if_true] at hz
              rw [markReminded_eq_map now subscription.id w.subscriptions hnd]
                at hz
              rcases List.mem_map.mp hz with ⟨y, hyw, rfl⟩
              by_cases hysid : y.id = subscription.id
              · rw [if_pos hysid] at hzid ⊢
                exact ⟨now, rfl, htn⟩
              · rw [if_neg hysid] at hzid ⊢
                exact hbase y hyw hzid
            · rw [send_reminder] at hz
              simp only [hok, Bool.false_eq_true, if_false] at hz
              exact hbase z hz hzid

/-! ### Witnesses -/

def wDue : World := { subscriptions := [subDue], users := [u42], log := [] }

/-- An expired subscription (scenario C): ends at 2024-01-01T00:00Z
(epoch 1704067200), still active, `reminded_at = 7`. -/
def subExp : Subscription :=
  { id := 1, user_id := 42, service_name := "", cost := none,
    start_date := 0, end_date := 1704067200,
    reminder_type := some ReminderType.TWO_DAYS, notes := none,
    is_active := true, reminded_at := some 7 }

def wExp : World := { subscriptions := [subExp], users := [u42], log := [] }

def wOrphan : World :=
  { subscriptions := [subDue], users := [u42inactive], log := [] }

/-- A well-formed, due subscription owned by `u43`. -/
def subDue2 : Subscription :=
  { id := 2, user_id := 43, service_name := "", cost := none,
    start_date := 0, end_date := 200000,
    reminder_type := some ReminderType.TWO_DAYS, notes := none,
    is_active := true, reminded_at := none }

def wMal2 : World :=
  { subscriptions := [subMal, subDue2], users := [u42, u43], log := [] }

def batchSub (i : Nat) : Subscription :=
  { id := i, user_id := 10 + (i : Int), service_name := "", cost := none,
    start_date := 0, end_date := 200000,
    reminder_type := some ReminderType.TWO_DAYS, notes := none,
    is_active := true, reminded_at := none }

def batchUser (i : Nat) : User :=
  { telegram_id := 10 + (i : Int), plan_type := PlanType.FREE,
    is_active := true }

def wBatch : World :=
  { subscriptions :=
      [batchSub 1, batchSub 2, batchSub 3, batchSub 4, batchSub 5]
    users :=
      [batchUser 1, batchUser 2, batchUser 3, batchUser 4, batchUser 5]
    log := [] }

/-- A channel that fails exactly for chat id 13 (the owner of batch item 3). -/
def sendFail13 : SendEvent → Bool := fun e => e.chat_id != 13

theorem claim_C3_selection_witness :
    ∃ e ∈ (process_pending_reminders (fun _ => true) 27200 wDue).2.log,
      e.kb_subscription = subDue.id :=
  ((claim_C3_selection (fun _ => true) 27200 wDue subDue (by decide) rfl
      (by decide)).1).mpr ⟨rfl, rfl, u42, by decide, rfl, by decide⟩

theorem claim_C4_dispatch_witness :
    (send_reminder (fun _ => true) 27200 wDue subDue u42).1 = true ∧
    (send_reminder (fun _ => true) 27200 wDue subDue u42).2.subscriptions =
      wDue.subscriptions.map (fun x =>
        if x.id = subDue.id then { x with reminded_at := some 27200 }
        else x) :=
  (claim_C4_dispatch (fun _ => true) 27200 wDue subDue u42 (by decide)).1 rfl

theorem claim_C5_failure_isolation_witness :
    ((∃ e ∈ (process_pending_reminders sendFail13 27200 wBatch).2.log,
        e.kb_subscription = (batchSub 4).id) ∧
      { batchSub 4 with reminded_at := some 27200 } ∈
        (process_pending_reminders sendFail13 27200 wBatch).2.subscriptions) ∧
    (process_pending_reminders sendFail13 27200 wBatch).1 = 4 ∧
    (process_pending_reminders sendFail13 27200 wBatch).2.subscriptions.map
        Subscription.reminded_at =
      [some 27200, some 27200, none, some 27200, some 27200] :=
  ⟨claim_C5_failure_isolation sendFail13 27200 wBatch (batchSub 4)
      (batchUser 4) (by decide) rfl (by decide) rfl rfl (by decide) rfl
      (by decide) (by decide),
    by decide, by decide⟩

theorem claim_C6_cycle_idempotent_witness :
    (process_pending_reminders (fun _ => true) 27200
        (process_pending_reminders (fun _ => true) 27200 wDue).2).1 = 0 ∧
    (process_pending_reminders (fun _ => true) 27200
        (process_pending_reminders (fun _ => true) 27200
          wDue).2).2.subscriptions =
      (process_pending_reminders (fun _ => true) 27200 wDue).2.subscriptions :=
  claim_C6_cycle_idempotent (fun _ => true) 27200 wDue (by decide)

theorem claim_C7_reconcile_witness :
    (cleanup_expired_subscriptions 1704153600 wExp).1 = 1 ∧
    (cleanup_expired_subscriptions 1704153600 wExp).2.subscriptions[0]? =
      some { subExp with is_active := false } ∧
    (cleanup_expired_subscriptions 1704153600 wExp).2.subscriptions.map
      Subscription.reminded_at = [some 7] := by
  refine ⟨by decide, ?_, by decide⟩
  have h := (claim_C7_reconcile 1704153600 wExp).2.1 0 subExp rfl
  rw [if_pos ⟨rfl, by decide⟩] at h
  exact h

theorem claim_C9_notes_witness :
    reminderText 0 { subDue with notes := some "secret note" } u42 =
      reminderText 0 subDue u42 :=
  claim_C9_notes 0 subDue (some "secret note") u42 rfl

theorem claim_C10_orphan_skipped_witness :
    (∀ e ∈ (process_pending_reminders (fun _ => true) 27200 wOrphan).2.log,
      e.kb_subscription ≠ subDue.id) ∧
    subDue ∈
      (process_pending_reminders (fun _ => true) 27200
        wOrphan).2.subscriptions ∧
    (process_pending_reminders (fun _ => true) 27200 wOrphan).2.users =
      wOrphan.users ∧
    (process_pending_reminders (fun _ => true) 27200
        wOrphan).2.subscriptions.map Subscription.id =
      wOrphan.subscriptions.map Subscription.id :=
  claim_C10_orphan_skipped (fun _ => true) 27200 wOrphan subDue (by decide) rfl
    (by decide) rfl rfl (by decide)
    (fun u h => by
      have h2 : some u42inactive = some u := h
      rw [← Option.some.inj h2]
      rfl)

theorem claim_C2_amended_no_skip_witness :
    ∃ e ∈ (process_pending_reminders (fun _ => true) 1000000 wMal2).2.log,
      e.kb_subscription = subDue2.id :=
  (((claim_C2_amended_no_skip (fun _ => true) 1000000 wMal2 subMal (by decide)
      rfl (by decide) (by decide)).2) subDue2 (by decide)).mpr
    ⟨rfl, rfl, u43, by decide, rfl, by decide⟩

theorem claim_C1_amended_monotone_witness :
    (subRem ∈
        (process_pending_reminders (fun _ => true) 200 wRem).2.subscriptions ∧
      ∀ e ∈ (process_pending_reminders (fun _ => true) 200 wRem).2.log,
        e.kb_subscription ≠ subRem.id) ∧
    ((cleanup_expired_subscriptions 200 wRem).2.subscriptions.map
        Subscription.reminded_at =
      wRem.subscriptions.map Subscription.reminded_at) ∧
    (∀ sid : Nat, (100 : Int) ≤ 200 →
      ∀ z ∈ (send_individual_reminder (fun _ => true) 200
          wRem sid).2.subscriptions,
        z.id = subRem.id → ∃ t2, z.reminded_at = some t2 ∧ (100 : Int) ≤ t2) :=
  claim_C1_amended_monotone (fun _ => true) 200 wRem subRem 100 (by decide) rfl
    (by decide) rfl

end SubscriptionSaviour
